import Mathlib

/-!
Verification development for the tui-mqtt-monitor repository.

The Go source is shallowly embedded: Go strings are modeled as `List Char`
(one `Char` per rune; for the single-byte ASCII text these claims exercise,
rune positions and Go byte positions coincide), Go `time.Time` instants are
modeled as milliseconds since the Unix epoch (`Nat`; millisecond granularity
is the finest the program ever formats), channels are modeled as bounded
`List` queues, and each stateful component is a structure with an explicit
step function.
-/

set_option maxRecDepth 4000

/-! ## Go string helpers -/

/-- `strings.Split(s, sep)` for a one-character separator, on the
`List Char` model: split around every occurrence of `sep`.
`splitOnChar sep [] = [[]]`, matching Go (`strings.Split("", sep) = [""]`). -/
def splitOnChar (sep : Char) : List Char → List (List Char)
  | [] => [[]]
  | c :: cs =>
    if c = sep then [] :: splitOnChar sep cs
    else
      match splitOnChar sep cs with
      | [] => [[c]]
      | p :: ps => (c :: p) :: ps

/-- `strings.Join(parts, sep)` for a one-character separator. -/
def joinChar (sep : Char) : List (List Char) → List Char
  | [] => []
  | [t] => t
  | t :: t2 :: ts => t ++ sep :: joinChar sep (t2 :: ts)

/-- `unicode.IsSpace` (Go): the Unicode White_Space property. -/
def goIsSpace (c : Char) : Bool :=
  let n := c.toNat
  (0x09 ≤ n && n ≤ 0x0d) || n == 0x20 || n == 0x85 || n == 0xa0 ||
    n == 0x1680 || (0x2000 ≤ n && n ≤ 0x200a) || n == 0x2028 || n == 0x2029 ||
    n == 0x202f || n == 0x205f || n == 0x3000

/-- `unicode.IsControl` (Go): the Cc category,
U+0000..U+001F and U+007F..U+009F. -/
def goIsControl (c : Char) : Bool :=
  let n := c.toNat
  n < 0x20 || (0x7f ≤ n && n ≤ 0x9f)

/-- Accumulator for `goFields`: `cur` holds the characters of the
in-progress field, most recent first. -/
def goFieldsGo (cur : List Char) : List Char → List (List Char)
  | [] => if cur.isEmpty then [] else [cur.reverse]
  | c :: cs =>
    if goIsSpace c then
      if cur.isEmpty then goFieldsGo [] cs
      else cur.reverse :: goFieldsGo [] cs
    else goFieldsGo (c :: cur) cs

/-- `strings.Fields` (Go): the maximal runs of non-whitespace characters. -/
def goFields (l : List Char) : List (List Char) := goFieldsGo [] l

/-! ## Topic truncation (internal/mqtt TruncateTopic, config.go FormatTopicForDisplay) -/

/-- `TruncateTopic` from the internal mqtt package: keep only the last
`depth` slash-separated levels of a topic; `depth ≤ 0` and topics with at
most `depth` levels are returned unchanged.  `depth` is a Go `int`,
modeled as `Int`. -/
def TruncateTopic (topic : List Char) (depth : Int) : List Char :=
  if depth ≤ 0 then topic
  else
    let parts := splitOnChar '/' topic
    if (parts.length : Int) ≤ depth then topic
    else joinChar '/' (parts.drop (parts.length - depth.toNat))

/-- `FormatTopicForDisplay` from config.go: a verbatim duplicate of
`TruncateTopic`. -/
def FormatTopicForDisplay (topic : List Char) (depth : Int) : List Char :=
  if depth ≤ 0 then topic
  else
    let parts := splitOnChar '/' topic
    if (parts.length : Int) ≤ depth then topic
    else joinChar '/' (parts.drop (parts.length - depth.toNat))

/-! ## Payload sanitization (internal/mqtt SanitizePayload) -/

/-- `maxMessageSize` from SanitizePayload. -/
def maxMessageSize : Nat := 512

/-- The `"..."` truncation marker appended to capped payloads. -/
def ellipsisMarker : List Char := ['.', '.', '.']

/-- The size cap at the head of SanitizePayload: payloads longer than
`maxMessageSize` are cut to the first `maxMessageSize` characters with the
`"..."` marker appended. -/
def capContent (payload : List Char) : List Char :=
  if maxMessageSize < payload.length then
    payload.take maxMessageSize ++ ellipsisMarker
  else payload

/-- The character-replacement passes of SanitizePayload, in source order:
tabs, newlines and carriage returns become spaces, then every remaining
control character (other than the space just produced) becomes a space. -/
def cleanMaps (content : List Char) : List Char :=
  let s1 := content.map (fun c => if c = '\t' then ' ' else c)
  let s2 := s1.map (fun c => if c = '\n' then ' ' else c)
  let s3 := s2.map (fun c => if c = '\r' then ' ' else c)
  s3.map (fun c => if goIsControl c && c != ' ' then ' ' else c)

/-- SanitizePayload without its leading size cap:
`strings.Join(strings.Fields(cleaned), " ")`. -/
def sanitizeNoCap (content : List Char) : List Char :=
  joinChar ' ' (goFields (cleanMaps content))

/-- `SanitizePayload` from internal/mqtt/client.go: cap the size, replace
tabs / newlines / carriage returns / control characters with spaces, then
collapse whitespace runs by splitting into fields and re-joining with
single spaces. -/
def SanitizePayload (payload : List Char) : List Char :=
  sanitizeNoCap (capContent payload)

/-! ## Time formatting (Go `time.Time.Format` on the millisecond model) -/

/-- Zero-padded decimal rendering of `n` to at least `width` digits. -/
def pad (width n : Nat) : String :=
  let s := toString n
  String.mk (List.replicate (width - s.length) '0') ++ s

/-- Civil date from a day count since 1970-01-01 (proleptic Gregorian),
returned as (year, month, day).  Valid for non-negative day counts. -/
def civilFromDays (z : Nat) : Nat × Nat × Nat :=
  let z2 := z + 719468
  let era := z2 / 146097
  let doe := z2 % 146097
  let yoe := (doe - doe / 1460 + doe / 36524 - doe / 146097) / 365
  let y := yoe + era * 400
  let doy := doe - (365 * yoe + yoe / 4 - yoe / 100)
  let mp := (5 * doy + 2) / 153
  let d := doy - (153 * mp + 2) / 5 + 1
  let m := if mp < 10 then mp + 3 else mp - 9
  (if m ≤ 2 then y + 1 else y, m, d)

/-- Calendar fields of a `time.Time` instant, modeled as milliseconds since
the Unix epoch. -/
structure DateTime where
  year : Nat
  month : Nat
  day : Nat
  hour : Nat
  minute : Nat
  second : Nat
  millis : Nat
  deriving DecidableEq

/-- Break a millisecond timestamp into calendar fields. -/
def dateTimeOfMillis (t : Nat) : DateTime :=
  let ms := t % 1000
  let totalSec := t / 1000
  let s := totalSec % 60
  let totalMin := totalSec / 60
  let mi := totalMin % 60
  let totalHour := totalMin / 60
  let h := totalHour % 24
  let days := totalHour / 24
  let ymd := civilFromDays days
  ⟨ymd.1, ymd.2.1, ymd.2.2, h, mi, s, ms⟩

/-- Go layout `"2006-01-02 15:04:05.000"`: the prefix SessionLogger.Log
stamps on every line. -/
def goFormatDateTime (t : Nat) : String :=
  let dt := dateTimeOfMillis t
  pad 4 dt.year ++ "-" ++ pad 2 dt.month ++ "-" ++ pad 2 dt.day ++ " " ++
    pad 2 dt.hour ++ ":" ++ pad 2 dt.minute ++ ":" ++ pad 2 dt.second ++
    "." ++ pad 3 dt.millis

/-- Go layout `"20060102_150405"`: used by SessionLogger.generateFilename. -/
def goFormatCompact (t : Nat) : String :=
  let dt := dateTimeOfMillis t
  pad 4 dt.year ++ pad 2 dt.month ++ pad 2 dt.day ++ "_" ++
    pad 2 dt.hour ++ pad 2 dt.minute ++ pad 2 dt.second

/-- Go layout `"15:04:05.000"`: the time-only format used by the UI (and the
format the spec ascribes, incorrectly, to session-log lines). -/
def goFormatTimeOnly (t : Nat) : String :=
  let dt := dateTimeOfMillis t
  pad 2 dt.hour ++ ":" ++ pad 2 dt.minute ++ ":" ++ pad 2 dt.second ++
    "." ++ pad 3 dt.millis

/-! ## Messages (message.go) -/

/-- `MonitorMessage` from message.go.  The timestamp is milliseconds since
the epoch; `qos` is the raw Go `byte`. -/
structure MonitorMessage where
  topic : String
  displayTopic : String
  payload : String
  source : String
  timestamp : Nat
  qos : Nat
  retained : Bool
  color : String
  deriving DecidableEq

/-- `NewMonitorMessage` from message.go: depth-truncate the topic and
sanitize the payload while copying the remaining fields. -/
def NewMonitorMessage (topic : String) (payload : List Char) (timestamp : Nat)
    (qos : Nat) (retained : Bool) (source : String) (topicDepth : Int)
    (color : String) : MonitorMessage :=
  { topic := topic
    displayTopic := String.mk (TruncateTopic topic.data topicDepth)
    payload := String.mk (SanitizePayload payload)
    source := source
    timestamp := timestamp
    qos := qos
    retained := retained
    color := color }

/-! ## Source adapter message/status callbacks (mqtt_client.go) -/

/-- Observable state of one adapter feeding the shared message queue:
the queue contents (the `messagesCh` channel, capacity-bounded) and the
number of "Message channel full, dropping message" warning records the drop
path has emitted via `c.logger.Warn()` — the code keeps no other record of
drops, so this count is the embedding of the drop log. -/
structure AdapterQueueState where
  queue : List MonitorMessage
  dropped : Nat
  deriving DecidableEq

/-- The message callback installed by `MQTTClient.Connect`
(mqtt_client.go:56-67): a `select` that sends when `messagesCh` has room
and otherwise takes the `default` branch, logging a drop warning and
discarding the message; it never blocks.  The `cancelled` flag models the
`ctx.Done()` case, which simply returns (during a run it is false; when the
context is cancelled and the queue has room Go picks either ready case, a
race outside the claims considered here). -/
def messageCallback (cap : Nat) (cancelled : Bool) (s : AdapterQueueState)
    (m : MonitorMessage) : AdapterQueueState :=
  if s.queue.length < cap then { s with queue := s.queue ++ [m] }
  else if cancelled then s
  else { s with dropped := s.dropped + 1 }

/-- The status text built by the connection handler installed by
`MQTTClient.Connect` (mqtt_client.go:70-84): every branch wraps the outcome
in `fmt.Errorf`, success included.  `err` is the connection error from the
library (`nil` modeled as `none`); `subscribeErr` is the result of
`subscribeToTopics` when connected. -/
def connectionStatusText (name : String) (connected : Bool)
    (err : Option String) (subscribeErr : Option String) : String :=
  if connected then
    match subscribeErr with
    | some e => name ++ ": subscription error: " ++ e
    | none => name ++ ": connected and subscribed successfully"
  else
    match err with
    | some e => name ++ ": connection error: " ++ e
    | none => name ++ ": disconnected"

/-- The status event the connection handler delivers onto `errorsCh`: always
the non-nil error `connectionStatusText` (Go `error` values are modeled as
`Option String`, with `none` for `nil`). -/
def connectionHandlerEvent (name : String) (connected : Bool)
    (err : Option String) (subscribeErr : Option String) : Option String :=
  some (connectionStatusText name connected err subscribeErr)

/-! ## Session logger (SessionLogger) -/

/-- One session log file: its name and the lines written to it (each line
stored exactly as written, trailing newline included). -/
structure SessionFile where
  name : String
  lines : List String
  deriving DecidableEq

/-- `SessionLogger` state: `files` lists every file created so far in
creation order; the last entry is the one the open handle points at
(`fileOpen` tracks whether that handle is still open).  Times are
milliseconds; `currentTime` is the tick-updated clock, `startTime` the
current file's start. -/
structure SessionLogger where
  maxDuration : Nat
  startTime : Nat
  currentTime : Nat
  closed : Bool
  fileOpen : Bool
  files : List SessionFile
  deriving DecidableEq

/-- `generateFilename`: deterministic name derived from the file's start
timestamp, Go format `"mqtt_monitor_%s.log"` with layout `20060102_150405`. -/
def generateFilename (startTime : Nat) : String :=
  "mqtt_monitor_" ++ goFormatCompact startTime ++ ".log"

/-- `rotateFile`: close any open file, set the start time to the current
tick-updated time, and open a new file named from that start time. -/
def rotateFile (sl : SessionLogger) : SessionLogger :=
  { sl with
    startTime := sl.currentTime
    fileOpen := true
    files := sl.files ++ [⟨generateFilename sl.currentTime, []⟩] }

/-- `NewSessionLogger`: record the creation time and create the first file. -/
def newSessionLogger (maxDuration now : Nat) : SessionLogger :=
  rotateFile
    { maxDuration := maxDuration, startTime := now, currentTime := now,
      closed := false, fileOpen := false, files := [] }

/-- One tick of `timeKeeper`: store the ticker's time as `currentTime`. -/
def sessionTick (sl : SessionLogger) (t : Nat) : SessionLogger :=
  { sl with currentTime := t }

/-- Append a line to the currently open (last) file. -/
def appendLineToCurrent (sl : SessionLogger) (line : String) : SessionLogger :=
  match sl.files.getLast? with
  | none => sl
  | some f =>
    { sl with files := sl.files.dropLast ++ [⟨f.name, f.lines ++ [line]⟩] }

/-- `SessionLogger.Log`: fail when closed; rotate when the tick-updated
elapsed time strictly exceeds `maxDuration`; then write the line prefixed
with the `"2006-01-02 15:04:05.000"`-formatted current time.  Returns the
new state and the returned `error` (`none` for `nil`). -/
def sessionLog (sl : SessionLogger) (message : String) :
    SessionLogger × Option String :=
  if sl.closed then (sl, some "session logger has been closed")
  else
    let sl2 :=
      if sl.maxDuration < sl.currentTime - sl.startTime then rotateFile sl
      else sl
    (appendLineToCurrent sl2
      ("[" ++ goFormatDateTime sl2.currentTime ++ "] " ++ message ++ "\n"),
      none)

/-- `SessionLogger.Close`: the first call closes the handle and marks the
logger closed; later calls return `nil` and change nothing. -/
def sessionClose (sl : SessionLogger) : SessionLogger × Option String :=
  if sl.closed then (sl, none)
  else ({ sl with closed := true, fileOpen := false }, none)

/-- The lines of the currently open (last) session file. -/
def currentLines (sl : SessionLogger) : List String :=
  match sl.files.getLast? with
  | none => []
  | some f => f.lines

/-- Events driving a session-logger run: clock ticks and `Log` calls. -/
inductive SessionEvent where
  | tick (t : Nat)
  | logMsg (m : String)
  deriving DecidableEq

/-- One step of a session-logger run. -/
def sessionStep (sl : SessionLogger) : SessionEvent → SessionLogger
  | .tick t => sessionTick sl t
  | .logMsg m => (sessionLog sl m).1

/-- A session-logger run over a list of events. -/
def sessionRun (sl : SessionLogger) (evs : List SessionEvent) : SessionLogger :=
  evs.foldl sessionStep sl

/-! ## Aggregation router (main.go handleMessage / handleError) -/

/-- The session-log body built by `handleMessage`:
`fmt.Sprintf("[%s] %s: %s", source, displayTopic, payload)`. -/
def monitorLogMessage (source displayTopic payload : String) : String :=
  "[" ++ source ++ "] " ++ displayTopic ++ ": " ++ payload

/-- The session-log body built by `handleError`:
`fmt.Sprintf("Connection event: %s", err.Error())`. -/
def errorLogMessage (errText : String) : String :=
  "Connection event: " ++ errText

/-- The status line published by the router:
`fmt.Sprintf("Messages: %d | Errors: %d | Connections: %d", ...)`. -/
def statusLineFmt (messages errors connections : Nat) : String :=
  "Messages: " ++ toString messages ++ " | Errors: " ++ toString errors ++
    " | Connections: " ++ toString connections

/-- Does `sub` occur as a contiguous run inside `l`? (`strings.Contains`.) -/
def containsSub (sub : List Char) : List Char → Bool
  | [] => sub.isEmpty
  | c :: cs => sub.isPrefixOf (c :: cs) || containsSub sub cs

/-- The error line `UI.AddError` appends to the errors view: yellow
timestamp, then the error text colored green when it mentions a
connect/subscribe success, red otherwise. -/
def formatErrorLine (now : Nat) (errText : String) : String :=
  let color :=
    if containsSub ("connected").data errText.data ||
        containsSub ("subscribed").data errText.data then "green" else "red"
  "[yellow]" ++ goFormatTimeOnly now ++ "[white] [" ++ color ++ "]" ++
    errText ++ "[white]\n"

/-- Router-side UI state touched by `handleError`. -/
structure RouterState where
  messageCount : Nat
  errorCount : Nat
  errorsView : List String
  statusLine : String
  deriving DecidableEq

/-- `handleError` (main.go:243-257) for a non-nil error `errText` (the only
kind an adapter produces): append to the errors view, bump the error
counter, republish the status line.  `now` is the wall-clock instant
`AddError` stamps on the view line. -/
def handleErrorStep (clientCount now : Nat) (s : RouterState)
    (errText : String) : RouterState :=
  { s with
    errorsView := s.errorsView ++ [formatErrorLine now errText]
    errorCount := s.errorCount + 1
    statusLine := statusLineFmt s.messageCount (s.errorCount + 1) clientCount }

/-! ## Display sink ring buffer (ui.go AddMessage) -/

/-- `MaxDisplayedMessages` from ui.go. -/
def MaxDisplayedMessages : Nat := 1000

/-- `UI.AddMessage`, buffer part (ui.go:245-265): append, and when over
capacity shift left by one (`copy(ui.messages, ui.messages[1:])`) and
re-slice to `maxMessages`. -/
def AddMessage (maxMessages : Nat) (messages : List MonitorMessage)
    (msg : MonitorMessage) : List MonitorMessage :=
  let ms := messages ++ [msg]
  if maxMessages < ms.length then (ms.drop 1).take maxMessages else ms

/-- `UI.AddMessage`, buffer part, earlier variant (unnamed part_002:130-147):
append, and when over capacity re-slice off the first element
(`ui.messages = ui.messages[1:]`). -/
def AddMessagePartTwo (maxMessages : Nat) (messages : List MonitorMessage)
    (msg : MonitorMessage) : List MonitorMessage :=
  let ms := messages ++ [msg]
  if maxMessages < ms.length then ms.drop 1 else ms

/-- The last `k` elements of a list. -/
def takeLast (k : Nat) (l : List α) : List α :=
  (l.reverse.take k).reverse

/-! ## Render-format cache (ui.go formatMessageForDisplay) -/

/-- `MaxCacheSize` from ui.go. -/
def MaxCacheSize : Nat := 200

/-- Go map assignment `m[k] = v` on an association-list model: overwrite in
place when the key exists, append otherwise. -/
def assocPut : List (String × String) → String → String → List (String × String)
  | [], k, v => [(k, v)]
  | (k2, v2) :: rest, k, v =>
    if k2 = k then (k, v) :: rest else (k2, v2) :: assocPut rest k v

/-- Go map lookup on the association-list model. -/
def assocGet : List (String × String) → String → Option String
  | [], _ => none
  | (k2, v2) :: rest, k => if k2 = k then some v2 else assocGet rest k

/-- The cache-insertion tail of `UI.formatMessageForDisplay`
(ui.go:390-405): when the cache has reached `MaxCacheSize`, delete
`MaxCacheSize/2` entries (Go iterates the map in unspecified order; the
model deletes the first `MaxCacheSize/2` entries of the association list),
then store the new entry. -/
def cacheInsert (cache : List (String × String)) (k v : String) :
    List (String × String) :=
  let c :=
    if MaxCacheSize ≤ cache.length then cache.drop (MaxCacheSize / 2)
    else cache
  assocPut c k v

/-- The cache interaction of one `UI.formatMessageForDisplay` call: return
the cache unchanged on a hit, otherwise compute the render string `v` and
insert it. -/
def formatCacheStep (cache : List (String × String)) (k v : String) :
    List (String × String) :=
  match assocGet cache k with
  | some _ => cache
  | none => cacheInsert cache k v

/-! ## Shutdown orchestrator (main.go performGracefulShutdown) -/

/-- The stages of `performGracefulShutdown`, in source order. -/
inductive ShutdownStage where
  | cancelContext
  | stopUI
  | disconnectClients
  | waitMessageHandler
  | closeMessagesCh
  | closeErrorsCh
  deriving DecidableEq

/-- `time.After(2 * time.Second)` in `disconnectClients`, in ms. -/
def disconnectTimeoutMs : Nat := 2000

/-- `time.After(1 * time.Second)` in `waitForMessageHandler`, in ms. -/
def handlerTimeoutMs : Nat := 1000

/-- Completion time of the WaitGroup of concurrent `Disconnect` calls in
`disconnectClients`: all goroutines must finish, so it is the maximum of
the individual durations, and `none` (never) as soon as one call never
returns. -/
def groupCompletion (durations : List (Option Nat)) : Option Nat :=
  durations.foldl
    (fun acc d =>
      match acc, d with
      | some a, some b => some (max a b)
      | _, _ => none)
    (some 0)

/-- A `select` racing a done-channel against `time.After(timeout)`: the wait
ends at the earlier of completion and timeout, and in either case execution
continues.  A completion that never comes (`none`) ends the wait exactly at
the timeout. -/
def waitWithTimeout (timeout : Nat) (completion : Option Nat) : Nat :=
  match completion with
  | none => timeout
  | some t => min t timeout

/-- `performGracefulShutdown` (main.go:271-284): the stages it executes, in
order, each paired with the time spent waiting in it.  `disconnectDurations`
gives each adapter's `Disconnect` duration (`none` = never returns);
`handlerStop` the router termination-signal time. -/
def performGracefulShutdown (disconnectDurations : List (Option Nat))
    (handlerStop : Option Nat) : List (ShutdownStage × Nat) :=
  [(.cancelContext, 0), (.stopUI, 0),
   (.disconnectClients,
     waitWithTimeout disconnectTimeoutMs (groupCompletion disconnectDurations)),
   (.waitMessageHandler, waitWithTimeout handlerTimeoutMs handlerStop),
   (.closeMessagesCh, 0), (.closeErrorsCh, 0)]

/-! ## Session-log line formats as the spec words them (for comparison) -/

/-- Modelled from the spec: the session-log message line format the spec
claims, `"[<HH:MM:SS.mmm>] [<source>] <displayTopic>: <payload>"` — a
time-only timestamp prefix.  Defined for comparison with the line the code
actually writes. -/
def specSessionMessageLine (t : Nat) (source displayTopic payload : String) :
    String :=
  "[" ++ goFormatTimeOnly t ++ "] [" ++ source ++ "] " ++ displayTopic ++
    ": " ++ payload ++ "\n"

/-- Modelled from the spec: the session-log status-error line format the
spec claims, `"[<HH:MM:SS.mmm>] Connection event: <text>"`. -/
def specSessionErrorLine (t : Nat) (errText : String) : String :=
  "[" ++ goFormatTimeOnly t ++ "] Connection event: " ++ errText ++ "\n"

/-! ## Lemmas about split and join -/

theorem splitOnChar_ne_nil (sep : Char) (l : List Char) :
    splitOnChar sep l ≠ [] := by
  induction l with
  | nil => simp [splitOnChar]
  | cons c cs ih =>
    simp only [splitOnChar]
    split
    · simp
    · split
      · simp
      · simp

theorem splitOnChar_not_mem (sep : Char) (l : List Char) :
    ∀ p ∈ splitOnChar sep l, sep ∉ p := by
  induction l with
  | nil =>
    intro p hp
    simp [splitOnChar] at hp
    simp [hp]
  | cons c cs ih =>
    intro p hp
    simp only [splitOnChar] at hp
    by_cases hc : c = sep
    · rw [if_pos hc] at hp
      rcases List.mem_cons.mp hp with h | h
      · simp [h]
      · exact ih p h
    · rw [if_neg hc] at hp
      cases hsp : splitOnChar sep cs with
      | nil => exact absurd hsp (splitOnChar_ne_nil sep cs)
      | cons q qs =>
        rw [hsp] at hp
        rcases List.mem_cons.mp hp with h | h
        · subst h
          intro hmem
          rcases List.mem_cons.mp hmem with h1 | h1
          · exact hc h1.symm
          · exact ih q (hsp ▸ List.mem_cons_self q qs) h1
        · exact ih p (hsp ▸ List.mem_cons_of_mem q h)

theorem splitOnChar_eq_single (sep : Char) (t : List Char) (h : sep ∉ t) :
    splitOnChar sep t = [t] := by
  induction t with
  | nil => simp [splitOnChar]
  | cons c cs ih =>
    have hc : ¬(c = sep) := fun hh => h (by simp [hh])
    have hcs : sep ∉ cs := fun hm => h (List.mem_cons_of_mem c hm)
    simp only [splitOnChar, if_neg hc, ih hcs]

theorem splitOnChar_append_sep (sep : Char) (t r : List Char) (h : sep ∉ t) :
    splitOnChar sep (t ++ sep :: r) = t :: splitOnChar sep r := by
  induction t with
  | nil => simp [splitOnChar]
  | cons c cs ih =>
    have hc : ¬(c = sep) := fun hh => h (by simp [hh])
    have hcs : sep ∉ cs := fun hm => h (List.mem_cons_of_mem c hm)
    simp only [List.cons_append, splitOnChar, if_neg hc, List.append_eq, ih hcs]

theorem joinChar_cons_cons (sep c : Char) (p : List Char)
    (ps : List (List Char)) :
    joinChar sep ((c :: p) :: ps) = c :: joinChar sep (p :: ps) := by
  cases ps <;> simp [joinChar]

theorem joinChar_splitOnChar (sep : Char) (l : List Char) :
    joinChar sep (splitOnChar sep l) = l := by
  induction l with
  | nil => simp [splitOnChar, joinChar]
  | cons c cs ih =>
    simp only [splitOnChar]
    by_cases hc : c = sep
    · rw [if_pos hc]
      cases hsp : splitOnChar sep cs with
      | nil => exact absurd hsp (splitOnChar_ne_nil sep cs)
      | cons q qs =>
        have : joinChar sep ([] :: q :: qs) = sep :: joinChar sep (q :: qs) := by
          simp [joinChar]
        rw [this, ← hsp, ih, hc]
    · rw [if_neg hc]
      cases hsp : splitOnChar sep cs with
      | nil => exact absurd hsp (splitOnChar_ne_nil sep cs)
      | cons q qs =>
        rw [joinChar_cons_cons, ← hsp, ih]

theorem splitOnChar_joinChar (sep : Char) (L : List (List Char)) (hne : L ≠ [])
    (h : ∀ p ∈ L, sep ∉ p) : splitOnChar sep (joinChar sep L) = L := by
  induction L with
  | nil => exact absurd rfl hne
  | cons t ts ih =>
    cases ts with
    | nil => simpa [joinChar] using splitOnChar_eq_single sep t (h t (by simp))
    | cons t2 ts2 =>
      have hj : joinChar sep (t :: t2 :: ts2) =
          t ++ sep :: joinChar sep (t2 :: ts2) := by simp [joinChar]
      rw [hj, splitOnChar_append_sep sep t _ (h t (by simp)),
        ih (by simp) (fun p hp => h p (List.mem_cons_of_mem t hp))]

/-- Claim C7: topic-depth truncation keeps exactly the last `depth`
slash-separated levels (`truncate("a/b/c/d", 2) = "c/d"`); a topic with at
most `depth` levels is returned unchanged (`truncate("a/b", 5) = "a/b"`);
`depth ≤ 0` returns the input unchanged; and `FormatTopicForDisplay` agrees
with `TruncateTopic` everywhere. -/
theorem C7_truncate_topic :
    TruncateTopic ("a/b/c/d").data 2 = ("c/d").data ∧
    TruncateTopic ("a/b").data 5 = ("a/b").data ∧
    (∀ (t : List Char) (d : Int), d ≤ 0 → TruncateTopic t d = t) ∧
    (∀ (t : List Char) (d : Int),
      ((splitOnChar '/' t).length : Int) ≤ d → TruncateTopic t d = t) ∧
    (∀ (t : List Char) (d : Int), 0 < d →
      d < ((splitOnChar '/' t).length : Int) →
      splitOnChar '/' (TruncateTopic t d) =
        (splitOnChar '/' t).drop ((splitOnChar '/' t).length - d.toNat)) ∧
    (∀ (t : List Char) (d : Int), FormatTopicForDisplay t d = TruncateTopic t d) := by
  refine ⟨by decide, by decide, ?_, ?_, ?_, ?_⟩
  · intro t d hd
    simp [TruncateTopic, hd]
  · intro t d hd
    by_cases h0 : d ≤ 0
    · simp [TruncateTopic, h0]
    · simp [TruncateTopic, h0, hd]
  · intro t d hd0 hdlen
    have h0 : ¬(d ≤ 0) := by omega
    have hlen : ¬(((splitOnChar '/' t).length : Int) ≤ d) := by omega
    simp only [TruncateTopic, if_neg h0, if_neg hlen]
    have hdrop : ∀ p ∈ (splitOnChar '/' t).drop
        ((splitOnChar '/' t).length - d.toNat), ('/') ∉ p :=
      fun p hp => splitOnChar_not_mem ('/') t p (List.mem_of_mem_drop hp)
    have hlen2 : (splitOnChar '/' t).length - d.toNat <
        (splitOnChar '/' t).length := by omega
    have hne : (splitOnChar '/' t).drop
        ((splitOnChar '/' t).length - d.toNat) ≠ [] := by
      intro hnil
      have := List.length_drop ((splitOnChar '/' t).length - d.toNat)
        (splitOnChar '/' t)
      rw [hnil] at this
      simp at this
      omega
    exact splitOnChar_joinChar ('/') _ hne hdrop
  · intro t d
    rfl

/-- Witness for C7 at concrete inputs. -/
theorem C7_truncate_topic_witness :
    TruncateTopic ("x/y").data (-1) = ("x/y").data ∧
    TruncateTopic ("a/b/c").data 7 = ("a/b/c").data ∧
    splitOnChar '/' (TruncateTopic ("a/b/c/d").data 2) =
      (splitOnChar '/' ("a/b/c/d").data).drop
        ((splitOnChar '/' ("a/b/c/d").data).length - (2 : Int).toNat) :=
  ⟨C7_truncate_topic.2.2.1 ("x/y").data (-1) (by decide),
   C7_truncate_topic.2.2.2.1 ("a/b/c").data 7 (by decide),
   C7_truncate_topic.2.2.2.2.1 ("a/b/c/d").data 2 (by decide) (by decide)⟩

/-! ## Lemmas about the display ring buffer -/

theorem takeLast_eq_drop (k : Nat) (l : List α) :
    takeLast k l = l.drop (l.length - k) := by
  rw [takeLast, List.take_reverse, List.reverse_reverse]

theorem takeLast_length (k : Nat) (l : List α) :
    (takeLast k l).length = min k l.length := by
  rw [takeLast_eq_drop, List.length_drop]
  omega

theorem takeLast_of_length_le (k : Nat) (l : List α) (h : l.length ≤ k) :
    takeLast k l = l := by
  rw [takeLast_eq_drop, Nat.sub_eq_zero_of_le h, List.drop_zero]

theorem takeLast_append_takeLast (k : Nat) (a b : List α) :
    takeLast k (takeLast k a ++ b) = takeLast k (a ++ b) := by
  simp only [takeLast, List.reverse_append, List.reverse_reverse]
  rw [List.take_append_eq_append_take,
    @List.take_append_eq_append_take _ b.reverse a.reverse k, List.take_take]
  have : min (k - b.reverse.length) k = k - b.reverse.length := by omega
  rw [this]

theorem AddMessage_eq_takeLast (K : Nat) (s : List MonitorMessage)
    (m : MonitorMessage) (h : s.length ≤ K) :
    AddMessage K s m = takeLast K (s ++ [m]) := by
  simp only [AddMessage]
  by_cases hlen : K < (s ++ [m]).length
  · rw [if_pos hlen]
    have hK : s.length = K := by simp at hlen; omega
    rw [takeLast_eq_drop]
    have h1 : (s ++ [m]).length - K = 1 := by simp; omega
    rw [h1]
    exact List.take_of_length_le (by simp; omega)
  · rw [if_neg hlen]
    exact (takeLast_of_length_le K _ (by omega)).symm

theorem AddMessage_length_le (K : Nat) (s : List MonitorMessage)
    (m : MonitorMessage) (h : s.length ≤ K) :
    (AddMessage K s m).length ≤ K := by
  rw [AddMessage_eq_takeLast K s m h, takeLast_length]
  omega

theorem foldl_AddMessage (K : Nat) (msgs : List MonitorMessage) :
    ∀ s : List MonitorMessage, s.length ≤ K →
      msgs.foldl (AddMessage K) s = takeLast K (s ++ msgs) := by
  induction msgs with
  | nil => intro s hs; simp [takeLast_of_length_le K s hs]
  | cons m ms ih =>
    intro s hs
    rw [List.foldl_cons,
      ih (AddMessage K s m) (AddMessage_length_le K s m hs),
      AddMessage_eq_takeLast K s m hs, takeLast_append_takeLast]
    simp

theorem AddMessagePartTwo_eq (K : Nat) (s : List MonitorMessage)
    (m : MonitorMessage) (h : s.length ≤ K) :
    AddMessagePartTwo K s m = AddMessage K s m := by
  simp only [AddMessagePartTwo, AddMessage]
  by_cases hlen : K < (s ++ [m]).length
  · rw [if_pos hlen, if_pos hlen]
    exact (List.take_of_length_le (by simp at hlen ⊢; omega)).symm
  · rw [if_neg hlen, if_neg hlen]

theorem foldl_AddMessagePartTwo (K : Nat) (msgs : List MonitorMessage) :
    ∀ s : List MonitorMessage, s.length ≤ K →
      msgs.foldl (AddMessagePartTwo K) s = msgs.foldl (AddMessage K) s := by
  induction msgs with
  | nil => intro s _; simp
  | cons m ms ih =>
    intro s hs
    rw [List.foldl_cons, List.foldl_cons, AddMessagePartTwo_eq K s m hs,
      ih (AddMessage K s m) (AddMessage_length_le K s m hs)]

/-- Claim C3: for every sequence of messages added to the Display Sink the
stored buffer has length at most K = 1000 after every insertion (every
prefix of the sequence is itself a sequence, so the universally quantified
statement covers every intermediate state), and after inserting K+j
messages (j > 0) the buffer holds exactly the last K messages in arrival
order; the part_002 variant of AddMessage produces the same buffer. -/
theorem C3_ring_buffer (msgs : List MonitorMessage) :
    (msgs.foldl (AddMessage MaxDisplayedMessages) []).length ≤
      MaxDisplayedMessages ∧
    (MaxDisplayedMessages ≤ msgs.length →
      msgs.foldl (AddMessage MaxDisplayedMessages) [] =
        msgs.drop (msgs.length - MaxDisplayedMessages)) ∧
    msgs.foldl (AddMessagePartTwo MaxDisplayedMessages) [] =
      msgs.foldl (AddMessage MaxDisplayedMessages) [] := by
  refine ⟨?_, ?_, ?_⟩
  · rw [foldl_AddMessage MaxDisplayedMessages msgs [] (by simp), List.nil_append,
      takeLast_length]
    omega
  · intro _
    rw [foldl_AddMessage MaxDisplayedMessages msgs [] (by simp), List.nil_append,
      takeLast_eq_drop]
  · exact foldl_AddMessagePartTwo MaxDisplayedMessages msgs [] (by simp)

/-- Witness for C3: a concrete run of 1002 insertions keeps exactly the
last 1000 messages. -/
theorem C3_ring_buffer_witness :
    MaxDisplayedMessages ≤
      (List.replicate 1002 (MonitorMessage.mk "t" "t" "p" "s" 0 0 false "g")).length ∧
    (List.replicate 1002 (MonitorMessage.mk "t" "t" "p" "s" 0 0 false "g")).foldl
        (AddMessage MaxDisplayedMessages) [] =
      (List.replicate 1002 (MonitorMessage.mk "t" "t" "p" "s" 0 0 false "g")).drop
        ((List.replicate 1002 (MonitorMessage.mk "t" "t" "p" "s" 0 0 false "g")).length -
          MaxDisplayedMessages) :=
  ⟨by simp [MaxDisplayedMessages],
   (C3_ring_buffer _).2.1 (by simp [MaxDisplayedMessages])⟩

/-! ## Lemmas about the format cache -/

theorem assocPut_length_le (l : List (String × String)) (k v : String) :
    (assocPut l k v).length ≤ l.length + 1 := by
  induction l with
  | nil => simp [assocPut]
  | cons p rest ih =>
    simp only [assocPut]
    split
    · simp
    · simpa using ih

theorem cacheInsert_length_le (c : List (String × String)) (k v : String)
    (h : c.length ≤ MaxCacheSize) :
    (cacheInsert c k v).length ≤ MaxCacheSize := by
  simp only [cacheInsert]
  by_cases hfull : MaxCacheSize ≤ c.length
  · rw [if_pos hfull]
    have h1 := assocPut_length_le (c.drop (MaxCacheSize / 2)) k v
    have h2 : (c.drop (MaxCacheSize / 2)).length = c.length - MaxCacheSize / 2 :=
      List.length_drop _ _
    simp only [MaxCacheSize] at *
    omega
  · rw [if_neg hfull]
    have h1 := assocPut_length_le c k v
    omega

theorem formatCacheStep_length_le (c : List (String × String)) (k v : String)
    (h : c.length ≤ MaxCacheSize) :
    (formatCacheStep c k v).length ≤ MaxCacheSize := by
  simp only [formatCacheStep]
  cases assocGet c k with
  | some _ => exact h
  | none => exact cacheInsert_length_le c k v h

theorem foldl_formatCacheStep_length_le (calls : List (String × String)) :
    ∀ c : List (String × String), c.length ≤ MaxCacheSize →
      (calls.foldl (fun c p => formatCacheStep c p.1 p.2) c).length ≤
        MaxCacheSize := by
  induction calls with
  | nil => intro c hc; simpa using hc
  | cons p ps ih =>
    intro c hc
    exact ih _ (formatCacheStep_length_le c p.1 p.2 hc)

/-- Claim C6: over any sequence of render-format-cache interactions starting
from the empty cache, the cache size stays at most MaxCacheSize = 200 after
every insertion; and a miss that finds the cache at capacity first evicts
exactly MaxCacheSize/2 = 100 entries and then inserts the new entry. -/
theorem C6_format_cache (calls : List (String × String))
    (c : List (String × String)) (k v : String) :
    (calls.foldl (fun c p => formatCacheStep c p.1 p.2) []).length ≤
      MaxCacheSize ∧
    (c.length = MaxCacheSize → assocGet c k = none →
      formatCacheStep c k v = assocPut (c.drop (MaxCacheSize / 2)) k v ∧
      (c.drop (MaxCacheSize / 2)).length = MaxCacheSize / 2 ∧
      (formatCacheStep c k v).length ≤ MaxCacheSize / 2 + 1) := by
  refine ⟨foldl_formatCacheStep_length_le calls [] (by simp), ?_⟩
  intro hfull hmiss
  have hstep : formatCacheStep c k v = assocPut (c.drop (MaxCacheSize / 2)) k v := by
    simp only [formatCacheStep, hmiss, cacheInsert]
    rw [if_pos (le_of_eq hfull.symm)]
  refine ⟨hstep, ?_, ?_⟩
  · rw [List.length_drop, hfull]; decide
  · rw [hstep]
    have h1 := assocPut_length_le (c.drop (MaxCacheSize / 2)) k v
    have h2 : (c.drop (MaxCacheSize / 2)).length = MaxCacheSize / 2 := by
      rw [List.length_drop, hfull]; decide
    omega

/-- Witness for C6 at a concrete full cache of 200 distinct keys. -/
theorem C6_format_cache_witness :
    ((List.range 200).map (fun i => (toString i, "v"))).length = MaxCacheSize ∧
    assocGet ((List.range 200).map (fun i => (toString i, "v"))) "new" = none ∧
    formatCacheStep ((List.range 200).map (fun i => (toString i, "v"))) "new" "r" =
      assocPut (((List.range 200).map (fun i => (toString i, "v"))).drop
        (MaxCacheSize / 2)) "new" "r" :=
  ⟨by simp [MaxCacheSize], by decide,
   ((C6_format_cache [] _ "new" "r").2 (by simp [MaxCacheSize]) (by decide)).1⟩

/-! ## Claim C5: session logger close semantics -/

/-- Claim C5: `Log` after `Close` returns the "session logger has been
closed" error and leaves the state (in particular every file's contents)
unchanged; the first `Close` closes the file handle and marks the logger
closed, returning nil; every later `Close` returns nil and changes
nothing. -/
theorem C5_logger_closed (sl : SessionLogger) (m : String) :
    (sl.closed = true →
      sessionLog sl m = (sl, some "session logger has been closed")) ∧
    (sl.closed = false →
      sessionClose sl = ({ sl with closed := true, fileOpen := false }, none)) ∧
    (sl.closed = true → sessionClose sl = (sl, none)) := by
  refine ⟨?_, ?_, ?_⟩
  · intro h; simp [sessionLog, h]
  · intro h; simp [sessionClose, h]
  · intro h; simp [sessionClose, h]

/-- Witness for C5 on a concrete logger. -/
theorem C5_logger_closed_witness :
    (sessionLog (sessionClose (newSessionLogger 1000 0)).1 "x" =
      ((sessionClose (newSessionLogger 1000 0)).1,
        some "session logger has been closed")) ∧
    sessionClose (sessionClose (newSessionLogger 1000 0)).1 =
      ((sessionClose (newSessionLogger 1000 0)).1, none) :=
  ⟨(C5_logger_closed (sessionClose (newSessionLogger 1000 0)).1 "x").1 (by decide),
   (C5_logger_closed (sessionClose (newSessionLogger 1000 0)).1 "x").2.2 (by decide)⟩

/-! ## Claim C9: graceful-shutdown sequence -/

/-- Claim C9: the graceful-shutdown sequence performs, in order, context
cancellation, UI stop, the concurrent-disconnect wait (at most 2 seconds),
the router-termination wait (at most 1 second), then closes the message and
status queues; every wait is a race against its timeout so it never exceeds
it, and with three adapters of which one never returns from Disconnect the
disconnect stage still completes, exactly at its 2-second timeout, and the
remaining stages still run. -/
theorem C9_graceful_shutdown (dd : List (Option Nat)) (hs : Option Nat)
    (timeout : Nat) (completion : Option Nat) :
    (performGracefulShutdown dd hs).map Prod.fst =
      [.cancelContext, .stopUI, .disconnectClients, .waitMessageHandler,
       .closeMessagesCh, .closeErrorsCh] ∧
    waitWithTimeout timeout completion ≤ timeout ∧
    performGracefulShutdown [some 10, none, some 50] (some 100) =
      [(.cancelContext, 0), (.stopUI, 0), (.disconnectClients, 2000),
       (.waitMessageHandler, 100), (.closeMessagesCh, 0),
       (.closeErrorsCh, 0)] := by
  refine ⟨rfl, ?_, by decide⟩
  cases completion with
  | none => simp [waitWithTimeout]
  | some t => simp [waitWithTimeout]

/-! ## Claim C10: status events are always non-nil errors and the router
counts every one -/

/-- Claim C10: every status event the connection handler delivers is a
non-nil error value, with success encoded as
`"<name>: connected and subscribed successfully"`; and for every such event
the router's `handleError` appends a line to the errors view, increments
the error counter, and republishes the status line with the incremented
count. -/
theorem C10_status_events (name : String) (connected : Bool)
    (err subscribeErr : Option String) (clientCount now : Nat)
    (s : RouterState) :
    (connectionHandlerEvent name connected err subscribeErr).isSome = true ∧
    (connected = true → subscribeErr = none →
      connectionHandlerEvent name connected err subscribeErr =
        some (name ++ ": connected and subscribed successfully")) ∧
    (∀ ev : String,
      connectionHandlerEvent name connected err subscribeErr = some ev →
      handleErrorStep clientCount now s ev =
        { s with
          errorsView := s.errorsView ++ [formatErrorLine now ev]
          errorCount := s.errorCount + 1
          statusLine := statusLineFmt s.messageCount (s.errorCount + 1)
            clientCount }) := by
  refine ⟨rfl, ?_, ?_⟩
  · intro hconn hsub
    simp [connectionHandlerEvent, connectionStatusText, hconn, hsub]
  · intro ev _
    rfl

/-- Witness for C10 on a concrete successful connection event. -/
theorem C10_status_events_witness :
    connectionHandlerEvent "alpha" true none none =
      some ("alpha" ++ ": connected and subscribed successfully") ∧
    handleErrorStep 3 0 (RouterState.mk 0 0 [] "") "alpha: connected and subscribed successfully" =
      { RouterState.mk 0 0 [] "" with
        errorsView := [] ++ [formatErrorLine 0 "alpha: connected and subscribed successfully"]
        errorCount := 0 + 1
        statusLine := statusLineFmt 0 (0 + 1) 3 } :=
  ⟨(C10_status_events "alpha" true none none 3 0 (RouterState.mk 0 0 [] "")).2.1
      rfl rfl,
   (C10_status_events "alpha" true none none 3 0 (RouterState.mk 0 0 [] "")).2.2
      "alpha: connected and subscribed successfully"
      ((C10_status_events "alpha" true none none 3 0 (RouterState.mk 0 0 [] "")).2.1 rfl rfl)⟩

/-! ## Claim C1: non-blocking drop on a full message queue, with conservation -/

theorem foldl_messageCallback (cap : Nat) (msgs : List MonitorMessage) :
    ∀ s : AdapterQueueState,
      msgs.foldl (messageCallback cap false) s =
        ⟨s.queue ++ msgs.take (cap - s.queue.length),
         s.dropped + (msgs.length - (cap - s.queue.length))⟩ := by
  induction msgs with
  | nil =>
    intro s
    simp
  | cons m ms ih =>
    intro s
    rw [List.foldl_cons]
    by_cases hroom : s.queue.length < cap
    · have hstep : messageCallback cap false s m =
          { s with queue := s.queue ++ [m] } := by
        simp [messageCallback, hroom]
      rw [hstep, ih]
      have hr : cap - (s.queue ++ [m]).length = cap - s.queue.length - 1 := by
        simp; omega
      have htake : (m :: ms).take (cap - s.queue.length) =
          m :: ms.take (cap - s.queue.length - 1) := by
        have h2 : cap - s.queue.length = (cap - s.queue.length - 1) + 1 := by
          omega
        rw [h2, List.take_succ_cons, Nat.add_sub_cancel]
      refine congrArg₂ AdapterQueueState.mk ?_ ?_
      · simp only [hr, htake]
        simp
      · simp only [hr]
        simp only [List.length_cons]
        omega
    · have hstep : messageCallback cap false s m =
          { s with dropped := s.dropped + 1 } := by
        simp [messageCallback, hroom]
      rw [hstep, ih]
      have hr : cap - s.queue.length = 0 := by omega
      refine congrArg₂ AdapterQueueState.mk ?_ ?_
      · simp [hr]
      · simp [hr]
        omega

/-- Claim C1: a message arriving at the adapter's message callback while the
shared queue is full is dropped without blocking (the callback is a total
step function that leaves the queue unchanged) and the drop record — the
count of "channel full" warnings the drop path logs — is incremented by
one; and a burst of C+D messages (D > 0) enqueued against a queue of
capacity C with no router drain delivers exactly the first C (the queue
contents handed to the router) and drops exactly D, with
delivered + dropped equal to the total sent. -/
theorem C1_drop_on_full (cap D : Nat) (s : AdapterQueueState)
    (m : MonitorMessage) (msgs : List MonitorMessage) :
    (cap ≤ s.queue.length →
      messageCallback cap false s m = { s with dropped := s.dropped + 1 }) ∧
    (msgs.length = cap + D → 0 < D →
      (msgs.foldl (messageCallback cap false) ⟨[], 0⟩).queue = msgs.take cap ∧
      (msgs.foldl (messageCallback cap false) ⟨[], 0⟩).queue.length = cap ∧
      (msgs.foldl (messageCallback cap false) ⟨[], 0⟩).dropped = D ∧
      (msgs.foldl (messageCallback cap false) ⟨[], 0⟩).queue.length +
        (msgs.foldl (messageCallback cap false) ⟨[], 0⟩).dropped =
        msgs.length) := by
  constructor
  · intro hfull
    simp [messageCallback, Nat.not_lt.mpr hfull]
  · intro hlen _
    rw [foldl_messageCallback]
    refine ⟨by simp, ?_, ?_, ?_⟩
    · simp only [List.nil_append, List.length_take, List.length_nil]
      omega
    · simp only [List.length_nil, Nat.sub_zero]
      omega
    · simp only [List.nil_append, List.length_take, List.length_nil, Nat.sub_zero]
      omega

/-- Witness for C1: capacity 2, three messages sent, one dropped. -/
theorem C1_drop_on_full_witness :
    (2 ≤ (AdapterQueueState.mk
      [MonitorMessage.mk "t" "t" "p" "s" 0 0 false "g",
       MonitorMessage.mk "t" "t" "p" "s" 0 0 false "g"] 0).queue.length) ∧
    messageCallback 2 false
        (AdapterQueueState.mk
          [MonitorMessage.mk "t" "t" "p" "s" 0 0 false "g",
           MonitorMessage.mk "t" "t" "p" "s" 0 0 false "g"] 0)
        (MonitorMessage.mk "t" "t" "p" "s" 0 0 false "g") =
      { AdapterQueueState.mk
          [MonitorMessage.mk "t" "t" "p" "s" 0 0 false "g",
           MonitorMessage.mk "t" "t" "p" "s" 0 0 false "g"] 0 with
        dropped := 0 + 1 } ∧
    ((List.replicate 3 (MonitorMessage.mk "t" "t" "p" "s" 0 0 false "g")).foldl
        (messageCallback 2 false) ⟨[], 0⟩).dropped = 1 :=
  ⟨by decide,
   (C1_drop_on_full 2 1 _ (MonitorMessage.mk "t" "t" "p" "s" 0 0 false "g")
      (List.replicate 3 (MonitorMessage.mk "t" "t" "p" "s" 0 0 false "g"))).1
     (by decide),
   ((C1_drop_on_full 2 1 (AdapterQueueState.mk [] 0)
      (MonitorMessage.mk "t" "t" "p" "s" 0 0 false "g")
      (List.replicate 3 (MonitorMessage.mk "t" "t" "p" "s" 0 0 false "g"))).2
     (by simp) (by decide)).2.2.1⟩

/-! ## Lemmas about session-log writing -/

theorem currentLines_appendLine (sl : SessionLogger) (line : String)
    (hf : sl.files ≠ []) :
    currentLines (appendLineToCurrent sl line) = currentLines sl ++ [line] := by
  cases hlast : sl.files.getLast? with
  | none => exact absurd (List.getLast?_eq_none_iff.mp hlast) hf
  | some f =>
    simp only [appendLineToCurrent, hlast, currentLines, List.getLast?_concat]

theorem rotateFile_files_ne_nil (sl : SessionLogger) :
    (rotateFile sl).files ≠ [] := by
  simp [rotateFile]

theorem currentLines_rotateFile (sl : SessionLogger) :
    currentLines (rotateFile sl) = [] := by
  simp [currentLines, rotateFile, List.getLast?_concat]

theorem sessionLog_writes_line (sl : SessionLogger) (msg : String)
    (hc : sl.closed = false) (hf : sl.files ≠ []) :
    (currentLines (sessionLog sl msg).1).getLast? =
      some ("[" ++ goFormatDateTime sl.currentTime ++ "] " ++ msg ++ "\n") := by
  simp only [sessionLog, hc, Bool.false_eq_true, if_false]
  by_cases hrot : sl.maxDuration < sl.currentTime - sl.startTime
  · rw [if_pos hrot,
      currentLines_appendLine (rotateFile sl) _ (rotateFile_files_ne_nil sl),
      currentLines_rotateFile]
    simp only [List.nil_append]
    rfl
  · rw [if_neg hrot, currentLines_appendLine sl _ hf, List.getLast?_concat]

/-- Counterexample to claim C2: at the concrete time 01:02:03.456 on
1970-01-01 the line the code writes carries the full
`"2006-01-02 15:04:05.000"` date-time prefix, not the time-only
`"[<HH:MM:SS.mmm>]"` prefix the claim states; the two line formats differ
for both messages and status errors. -/
theorem C2_counterexample :
    currentLines (sessionLog (newSessionLogger 3600000 3723456)
        (monitorLogMessage "alpha" "a/b" "hi")).1 =
      ["[1970-01-01 01:02:03.456] [alpha] a/b: hi\n"] ∧
    specSessionMessageLine 3723456 "alpha" "a/b" "hi" =
      "[01:02:03.456] [alpha] a/b: hi\n" ∧
    currentLines (sessionLog (newSessionLogger 3600000 3723456)
        (monitorLogMessage "alpha" "a/b" "hi")).1 ≠
      [specSessionMessageLine 3723456 "alpha" "a/b" "hi"] ∧
    currentLines (sessionLog (newSessionLogger 3600000 3723456)
        (errorLogMessage "beta: disconnected")).1 =
      ["[1970-01-01 01:02:03.456] Connection event: beta: disconnected\n"] ∧
    currentLines (sessionLog (newSessionLogger 3600000 3723456)
        (errorLogMessage "beta: disconnected")).1 ≠
      [specSessionErrorLine 3723456 "beta: disconnected"] := by
  refine ⟨by decide, by decide, by decide, by decide, by decide⟩

/-- Claim C2 (amended): every message line the Router forwards to the
Session Logger is written as
`"[<YYYY-MM-DD HH:MM:SS.mmm>] [<source>] <displayTopic>: <payload>"` — the
timestamp prefix is the full date-time, not the time-only form — and every
status error produces
`"[<YYYY-MM-DD HH:MM:SS.mmm>] Connection event: <text>"`. -/
theorem C2_session_line_format (sl : SessionLogger)
    (src topic payload errText : String) (hc : sl.closed = false)
    (hf : sl.files ≠ []) :
    (currentLines (sessionLog sl (monitorLogMessage src topic payload)).1).getLast? =
      some ("[" ++ goFormatDateTime sl.currentTime ++ "] [" ++ src ++ "] " ++
        topic ++ ": " ++ payload ++ "\n") ∧
    (currentLines (sessionLog sl (errorLogMessage errText)).1).getLast? =
      some ("[" ++ goFormatDateTime sl.currentTime ++ "] Connection event: " ++
        errText ++ "\n") := by
  constructor
  · rw [sessionLog_writes_line sl _ hc hf]
    refine congrArg some ?_
    simp only [monitorLogMessage, String.append_assoc]
    have h : ("] " : String) ++ "[" = "] [" := by decide
    rw [← h, String.append_assoc]
  · rw [sessionLog_writes_line sl _ hc hf]
    refine congrArg some ?_
    simp only [errorLogMessage, String.append_assoc]
    have h : ("] " : String) ++ "Connection event: " = "] Connection event: " := by
      decide
    rw [← h, String.append_assoc]

/-- Witness for C2 (amended) on a concrete logger and message. -/
theorem C2_session_line_format_witness :
    (currentLines (sessionLog (newSessionLogger 3600000 3723456)
        (monitorLogMessage "alpha" "a/b" "hi")).1).getLast? =
      some ("[" ++ goFormatDateTime (newSessionLogger 3600000 3723456).currentTime ++
        "] [" ++ "alpha" ++ "] " ++ "a/b" ++ ": " ++ "hi" ++ "\n") :=
  (C2_session_line_format (newSessionLogger 3600000 3723456) "alpha" "a/b" "hi"
    "e" (by decide) (by decide)).1

/-! ## Lemmas about session rotation -/

theorem appendLineToCurrent_fields (sl : SessionLogger) (line : String) :
    (appendLineToCurrent sl line).closed = sl.closed ∧
    (appendLineToCurrent sl line).maxDuration = sl.maxDuration ∧
    (appendLineToCurrent sl line).startTime = sl.startTime ∧
    (appendLineToCurrent sl line).currentTime = sl.currentTime ∧
    (appendLineToCurrent sl line).files.length = sl.files.length := by
  cases hlast : sl.files.getLast? with
  | none => simp [appendLineToCurrent, hlast]
  | some f =>
    have hne : sl.files ≠ [] := by
      intro h
      rw [h] at hlast
      simp at hlast
    have hlen : 1 ≤ sl.files.length := by
      cases hfi : sl.files
      · exact absurd hfi hne
      · simp [hfi]
    refine ⟨?_, ?_, ?_, ?_, ?_⟩
    · simp only [appendLineToCurrent, hlast]
    · simp only [appendLineToCurrent, hlast]
    · simp only [appendLineToCurrent, hlast]
    · simp only [appendLineToCurrent, hlast]
    · simp only [appendLineToCurrent, hlast, List.length_append,
        List.length_dropLast, List.length_cons, List.length_nil]
      omega

theorem rotateFile_fields (sl : SessionLogger) :
    (rotateFile sl).closed = sl.closed ∧
    (rotateFile sl).maxDuration = sl.maxDuration ∧
    (rotateFile sl).currentTime = sl.currentTime ∧
    (rotateFile sl).startTime = sl.currentTime ∧
    (rotateFile sl).files.length = sl.files.length + 1 := by
  refine ⟨rfl, rfl, rfl, rfl, ?_⟩
  simp [rotateFile]

theorem appendLineToCurrent_name (sl : SessionLogger) (line : String) :
    ((appendLineToCurrent sl line).files.getLast?).map SessionFile.name =
      (sl.files.getLast?).map SessionFile.name := by
  cases hlast : sl.files.getLast? with
  | none => simp [appendLineToCurrent, hlast]
  | some f => simp [appendLineToCurrent, hlast, List.getLast?_concat]

theorem sessionLog_files_length (sl : SessionLogger) (m : String)
    (hc : sl.closed = false) :
    (sessionLog sl m).1.files.length =
      (if sl.maxDuration < sl.currentTime - sl.startTime then
        sl.files.length + 1 else sl.files.length) := by
  simp only [sessionLog, hc, Bool.false_eq_true, if_false]
  by_cases hrot : sl.maxDuration < sl.currentTime - sl.startTime
  · rw [if_pos hrot, if_pos hrot]
    rw [(appendLineToCurrent_fields (rotateFile sl) _).2.2.2.2]
    exact (rotateFile_fields sl).2.2.2.2
  · rw [if_neg hrot, if_neg hrot]
    exact (appendLineToCurrent_fields sl _).2.2.2.2

theorem sessionStep_preserves (sl : SessionLogger) (ev : SessionEvent) :
    (sessionStep sl ev).closed = sl.closed ∧
    (sessionStep sl ev).maxDuration = sl.maxDuration ∧
    sl.files.length ≤ (sessionStep sl ev).files.length ∧
    ((sessionStep sl ev).files.length = sl.files.length →
      (sessionStep sl ev).startTime = sl.startTime) := by
  cases ev with
  | tick t => exact ⟨rfl, rfl, le_refl _, fun _ => rfl⟩
  | logMsg m =>
    simp only [sessionStep]
    by_cases hc : sl.closed = true
    · simp [sessionLog, hc]
    · have hc2 : sl.closed = false := by
        cases h : sl.closed
        · rfl
        · exact absurd h hc
      simp only [sessionLog, hc2, Bool.false_eq_true, if_false]
      by_cases hrot : sl.maxDuration < sl.currentTime - sl.startTime
      · rw [if_pos hrot]
        have h1 := appendLineToCurrent_fields (rotateFile sl)
          ("[" ++ goFormatDateTime (rotateFile sl).currentTime ++ "] " ++ m ++ "\n")
        have h2 := rotateFile_fields sl
        refine ⟨(h1.1.trans h2.1).trans hc2, h1.2.1.trans h2.2.1, ?_, ?_⟩
        · rw [h1.2.2.2.2, h2.2.2.2.2]
          omega
        · intro hfl
          rw [h1.2.2.2.2, h2.2.2.2.2] at hfl
          omega
      · rw [if_neg hrot]
        have h1 := appendLineToCurrent_fields sl
          ("[" ++ goFormatDateTime sl.currentTime ++ "] " ++ m ++ "\n")
        exact ⟨h1.1.trans hc2, h1.2.1, le_of_eq h1.2.2.2.2.symm, fun _ => h1.2.2.1⟩

theorem sessionRun_invariant (t0 : Nat) (evs : List SessionEvent) :
    ∀ sl : SessionLogger, sl.closed = false → 1 ≤ sl.files.length →
      (sl.files.length = 1 → sl.startTime = t0) →
      (sessionRun sl evs).closed = false ∧
      (sessionRun sl evs).maxDuration = sl.maxDuration ∧
      1 ≤ (sessionRun sl evs).files.length ∧
      ((sessionRun sl evs).files.length = 1 →
        (sessionRun sl evs).startTime = t0) ∧
      sl.files.length ≤ (sessionRun sl evs).files.length := by
  induction evs with
  | nil =>
    intro sl h1 h2 h3
    exact ⟨h1, rfl, h2, h3, le_refl _⟩
  | cons ev evs ih =>
    intro sl h1 h2 h3
    have hstep := sessionStep_preserves sl ev
    have hc : (sessionStep sl ev).closed = false := by rw [hstep.1, h1]
    have hlen : 1 ≤ (sessionStep sl ev).files.length :=
      le_trans h2 hstep.2.2.1
    have hst : (sessionStep sl ev).files.length = 1 →
        (sessionStep sl ev).startTime = t0 := by
      intro hone
      have heq : sl.files.length = 1 := by omega
      rw [hstep.2.2.2 (by omega)]
      exact h3 heq
    have hrun := ih (sessionStep sl ev) hc hlen hst
    have hruncast : sessionRun sl (ev :: evs) =
        sessionRun (sessionStep sl ev) evs := rfl
    rw [hruncast]
    exact ⟨hrun.1, hrun.2.1.trans hstep.2.1, hrun.2.2.1, hrun.2.2.2.1,
      le_trans hstep.2.2.1 hrun.2.2.2.2⟩

/-- Claim C4: a `Log` call rotates the session file if and only if the
tick-updated elapsed time since the current file's start strictly exceeds
the configured max duration (so no rotation happens earlier, up to the
one-tick granularity already built into `currentTime`); the file a rotation
opens is named deterministically from the rotation timestamp; and any run
of tick/Log events on a fresh logger whose last Log-visible tick lies more
than the max duration past the logger's start performs at least one
rotation (at least two files exist afterwards). -/
theorem C4_session_rotation (sl : SessionLogger) (m : String)
    (T t0 tn : Nat) (evs1 : List SessionEvent) (msg : String) :
    (sl.closed = false →
      (sl.files.length < (sessionLog sl m).1.files.length ↔
        sl.maxDuration < sl.currentTime - sl.startTime)) ∧
    (sl.closed = false → sl.maxDuration < sl.currentTime - sl.startTime →
      ((sessionLog sl m).1.files.getLast?).map SessionFile.name =
        some (generateFilename sl.currentTime) ∧
      (sessionLog sl m).1.startTime = sl.currentTime) ∧
    (T < tn - t0 →
      2 ≤ (sessionRun (newSessionLogger T t0)
        (evs1 ++ [SessionEvent.tick tn, SessionEvent.logMsg msg])).files.length) := by
  refine ⟨?_, ?_, ?_⟩
  · intro hc
    rw [sessionLog_files_length sl m hc]
    by_cases hrot : sl.maxDuration < sl.currentTime - sl.startTime
    · simp [hrot]
    · simp [hrot]
  · intro hc hrot
    have hred : (sessionLog sl m).1 =
        appendLineToCurrent (rotateFile sl)
          ("[" ++ goFormatDateTime (rotateFile sl).currentTime ++ "] " ++ m ++
            "\n") := by
      simp only [sessionLog, hc, Bool.false_eq_true, if_false, if_pos hrot]
    constructor
    · rw [hred, appendLineToCurrent_name]
      simp [rotateFile, List.getLast?_concat]
    · rw [hred, (appendLineToCurrent_fields _ _).2.2.1]
      rfl
  · intro hspan
    have hinit1 : (newSessionLogger T t0).closed = false := rfl
    have hinit2 : (newSessionLogger T t0).files.length = 1 := by
      simp [newSessionLogger, rotateFile]
    have hinit3 : (newSessionLogger T t0).startTime = t0 := rfl
    have hinit4 : (newSessionLogger T t0).maxDuration = T := rfl
    have hinv := sessionRun_invariant t0 evs1 (newSessionLogger T t0) hinit1
      (by omega) (fun _ => hinit3)
    set sl1 := sessionRun (newSessionLogger T t0) evs1 with hsl1
    have hsplit : sessionRun (newSessionLogger T t0)
        (evs1 ++ [SessionEvent.tick tn, SessionEvent.logMsg msg]) =
        sessionStep (sessionStep sl1 (SessionEvent.tick tn))
          (SessionEvent.logMsg msg) := by
      simp only [sessionRun, List.foldl_append, hsl1]
      rfl
    rw [hsplit]
    set sl2 := sessionStep sl1 (SessionEvent.tick tn) with hsl2
    have hsl2c : sl2.closed = false := hinv.1
    have hsl2files : sl2.files = sl1.files := rfl
    have hsl2max : sl2.maxDuration = T := by
      have h : sl2.maxDuration = sl1.maxDuration := rfl
      rw [h, hinv.2.1, hinit4]
    have hsl2cur : sl2.currentTime = tn := rfl
    have hstep3 : (sessionStep sl2 (SessionEvent.logMsg msg)).files.length =
        (if sl2.maxDuration < sl2.currentTime - sl2.startTime then
          sl2.files.length + 1 else sl2.files.length) :=
      sessionLog_files_length sl2 msg hsl2c
    by_cases h2 : 2 ≤ sl1.files.length
    · have hmono := (sessionStep_preserves sl2 (SessionEvent.logMsg msg)).2.2.1
      have hl : sl2.files.length = sl1.files.length := by rw [hsl2files]
      omega
    · have hone : sl1.files.length = 1 := by
        have := hinv.2.2.1
        omega
      have hst : sl1.startTime = t0 := hinv.2.2.2.1 hone
      have hsl2st : sl2.startTime = t0 := by
        have h : sl2.startTime = sl1.startTime := rfl
        rw [h, hst]
      have hguard : sl2.maxDuration < sl2.currentTime - sl2.startTime := by
        rw [hsl2max, hsl2cur, hsl2st]
        exact hspan
      rw [hstep3, if_pos hguard, hsl2files, hone]

/-- Witness for C4: a fresh logger with a 1-second window, ticked to 2
seconds, rotates on the next Log call; and a rotation at tick 5000 opens
the file named from that timestamp. -/
theorem C4_session_rotation_witness :
    2 ≤ (sessionRun (newSessionLogger 1000 0)
      ([] ++ [SessionEvent.tick 2000, SessionEvent.logMsg "x"])).files.length ∧
    ((sessionLog (sessionTick (newSessionLogger 1000 0) 5000) "y").1.files.getLast?).map
        SessionFile.name =
      some (generateFilename (sessionTick (newSessionLogger 1000 0) 5000).currentTime) :=
  ⟨(C4_session_rotation (newSessionLogger 1000 0) "x" 1000 0 2000 [] "x").2.2
      (by decide),
   ((C4_session_rotation (sessionTick (newSessionLogger 1000 0) 5000) "y"
      0 0 0 [] "x").2.1 (by decide) (by decide)).1⟩

/-! ## Lemmas about fields and sanitization -/

theorem goFieldsGo_tokens (l : List Char) :
    ∀ cur : List Char, (∀ c ∈ cur, goIsSpace c = false) →
      ∀ t ∈ goFieldsGo cur l, t ≠ [] ∧ ∀ c ∈ t, goIsSpace c = false := by
  induction l with
  | nil =>
    intro cur hcur t ht
    simp only [goFieldsGo] at ht
    by_cases hemp : cur.isEmpty
    · rw [if_pos hemp] at ht
      simp at ht
    · rw [if_neg hemp] at ht
      simp only [List.mem_singleton] at ht
      subst ht
      refine ⟨?_, ?_⟩
      · simp only [ne_eq, List.reverse_eq_nil_iff]
        intro h
        rw [h] at hemp
        exact hemp rfl
      · intro c hc
        exact hcur c (List.mem_reverse.mp hc)
  | cons a as ih =>
    intro cur hcur t ht
    simp only [goFieldsGo] at ht
    by_cases hsp : goIsSpace a = true
    · rw [if_pos hsp] at ht
      by_cases hemp : cur.isEmpty
      · rw [if_pos hemp] at ht
        exact ih [] (by simp) t ht
      · rw [if_neg hemp] at ht
        rcases List.mem_cons.mp ht with h | h
        · subst h
          refine ⟨?_, ?_⟩
          · simp only [ne_eq, List.reverse_eq_nil_iff]
            intro h
            rw [h] at hemp
            exact hemp rfl
          · intro c hc
            exact hcur c (List.mem_reverse.mp hc)
        · exact ih [] (by simp) t h
    · rw [if_neg hsp] at ht
      refine ih (a :: cur) ?_ t ht
      intro x hx
      rcases List.mem_cons.mp hx with h | h
      · subst h
        exact Bool.not_eq_true _ ▸ (by simpa using hsp)
      · exact hcur x h

theorem goFieldsGo_chars (l : List Char) :
    ∀ (cur t : List Char) (c : Char), t ∈ goFieldsGo cur l → c ∈ t →
      c ∈ cur ∨ c ∈ l := by
  induction l with
  | nil =>
    intro cur t c ht hc
    simp only [goFieldsGo] at ht
    by_cases hemp : cur.isEmpty
    · rw [if_pos hemp] at ht
      simp at ht
    · rw [if_neg hemp] at ht
      simp only [List.mem_singleton] at ht
      subst ht
      exact Or.inl (List.mem_reverse.mp hc)
  | cons a as ih =>
    intro cur t c ht hc
    simp only [goFieldsGo] at ht
    by_cases hsp : goIsSpace a = true
    · rw [if_pos hsp] at ht
      by_cases hemp : cur.isEmpty
      · rw [if_pos hemp] at ht
        rcases ih [] t c ht hc with h | h
        · simp at h
        · exact Or.inr (List.mem_cons_of_mem a h)
      · rw [if_neg hemp] at ht
        rcases List.mem_cons.mp ht with h | h
        · subst h
          exact Or.inl (List.mem_reverse.mp hc)
        · rcases ih [] t c h hc with h1 | h1
          · simp at h1
          · exact Or.inr (List.mem_cons_of_mem a h1)
    · rw [if_neg hsp] at ht
      rcases ih (a :: cur) t c ht hc with h | h
      · rcases List.mem_cons.mp h with h1 | h1
        · subst h1
          exact Or.inr (List.mem_cons_self _ _)
        · exact Or.inl h1
      · exact Or.inr (List.mem_cons_of_mem a h)

theorem joinChar_chars (sep : Char) (ts : List (List Char)) (c : Char) :
    c ∈ joinChar sep ts → c = sep ∨ ∃ t ∈ ts, c ∈ t := by
  induction ts with
  | nil =>
    intro hc
    simp [joinChar] at hc
  | cons t ts ih =>
    intro hc
    cases ts with
    | nil =>
      simp only [joinChar] at hc
      exact Or.inr ⟨t, by simp, hc⟩
    | cons t2 ts2 =>
      simp only [joinChar] at hc
      rcases List.mem_append.mp hc with h | h
      · exact Or.inr ⟨t, by simp, h⟩
      · rcases List.mem_cons.mp h with h1 | h1
        · exact Or.inl h1
        · rcases ih h1 with h2 | ⟨u, hu, hcu⟩
          · exact Or.inl h2
          · exact Or.inr ⟨u, List.mem_cons_of_mem t hu, hcu⟩

theorem cleanMaps_no_control (q : List Char) (c : Char)
    (hc : c ∈ cleanMaps q) : goIsControl c = false := by
  simp only [cleanMaps] at hc
  rcases List.mem_map.mp hc with ⟨a, _, ha⟩
  by_cases h : (goIsControl a && a != ' ') = true
  · rw [if_pos h] at ha
    rw [← ha]
    decide
  · rw [if_neg h] at ha
    subst ha
    cases hctrl : goIsControl a with
    | false => rfl
    | true =>
      have : a = ' ' := by
        simp only [Bool.and_eq_true, bne_iff_ne, ne_eq, not_and, not_not] at h
        exact h hctrl
      rw [this] at hctrl
      exact absurd hctrl (by decide)

/-- Claim C8: SanitizePayload returns the single-space join of
whitespace-free, nonempty tokens (tabs, newlines, carriage returns and
whitespace runs all collapse into the token separators), its result
contains no control characters, and a payload longer than the 512-byte cap
is sanitized from its capped prefix with the trailing `"..."` marker
appended. -/
theorem C8_sanitize_payload (p : List Char) :
    SanitizePayload p = joinChar ' ' (goFields (cleanMaps (capContent p))) ∧
    (∀ t ∈ goFields (cleanMaps (capContent p)),
      t ≠ [] ∧ ∀ c ∈ t, goIsSpace c = false) ∧
    (∀ c ∈ SanitizePayload p, goIsControl c = false) ∧
    (maxMessageSize < p.length →
      SanitizePayload p =
        sanitizeNoCap (p.take maxMessageSize ++ ellipsisMarker)) := by
  refine ⟨rfl, ?_, ?_, ?_⟩
  · exact goFieldsGo_tokens _ [] (by simp)
  · intro c hc
    rcases joinChar_chars ' ' _ c hc with h | ⟨t, ht, hct⟩
    · subst h
      decide
    · rcases goFieldsGo_chars _ [] t c ht hct with h | h
      · simp at h
      · exact cleanMaps_no_control _ c h
  · intro hlen
    simp [SanitizePayload, capContent, hlen]

/-- Witness for C8 on concrete payloads. -/
theorem C8_sanitize_payload_witness :
    (("ab").data ≠ [] ∧ ∀ c ∈ ("ab").data, goIsSpace c = false) ∧
    goIsControl 'a' = false ∧
    SanitizePayload (List.replicate 513 'a') =
      sanitizeNoCap ((List.replicate 513 'a').take maxMessageSize ++
        ellipsisMarker) :=
  ⟨(C8_sanitize_payload ("ab\t x").data).2.1 ("ab").data (by decide),
   (C8_sanitize_payload ("ab\t x").data).2.2.1 'a' (by decide),
   (C8_sanitize_payload (List.replicate 513 'a')).2.2.2
     (by simp [maxMessageSize])⟩
